import Mathlib

/-!
Shallow embedding of the audio acquisition and encoding pipeline of the
Gemini-Transcriber front-end (sources: `components/AudioInput.tsx`,
`types.ts` / `App.tsx`, `services/geminiService.ts`), together with
theorems settling the specification claims about it.

Binary blobs are modelled as lists of byte values; browser `Blob.size`
is the byte count.  Asynchronous event handlers (`ondataavailable`,
`onstop`, the `FileReader` completion) are modelled as state
transformers applied at the point where the corresponding event fires.
-/

/-- A binary blob: the byte contents.  Mirrors the browser `Blob`
used throughout `AudioInput.tsx`. -/
structure Blob where
  data : List Nat
  deriving DecidableEq, Repr

/-- `Blob.size` is the byte length, as in the browser API. -/
def Blob.size (b : Blob) : Nat := b.data.length

/-- The base64 alphabet used by `FileReader.readAsDataURL`. -/
def base64Table : List Char :=
  ("ABCDEFGHIJKLMNOPQRSTUVWXYZabcdefghijklmnopqrstuvwxyz0123456789+/").data

/-- Character for a 6-bit group. -/
def sixBit (n : Nat) : Char := base64Table.getD (n % 64) ('A')

/-- Base64 encoding of a byte list, 3 bytes to 4 characters with
trailing padding: the text produced by `reader.readAsDataURL` after the
code splits off the `data:` prefix at the comma. -/
def base64Core : List Nat → List Char
  | [] => []
  | [b1] =>
      let n := (b1 % 256) * 65536
      [sixBit (n / 262144), sixBit (n / 4096), '=', '=']
  | [b1, b2] =>
      let n := (b1 % 256) * 65536 + (b2 % 256) * 256
      [sixBit (n / 262144), sixBit (n / 4096), sixBit (n / 64), '=']
  | b1 :: b2 :: b3 :: rest =>
      let n := (b1 % 256) * 65536 + (b2 % 256) * 256 + (b3 % 256)
      sixBit (n / 262144) :: sixBit (n / 4096) :: sixBit (n / 64) :: sixBit n ::
        base64Core rest

/-- The base64 string handed to `onAudioReady` (the part of the
`readAsDataURL` result after the comma). -/
def base64Encode (bs : List Nat) : String := String.mk (base64Core bs)

/-- Model of the `AudioState` interface of `types.ts`: the payload
shape handed to `onAudioReady`.  The `file` field only matters as
present (upload) or `null` (recording, remote retrieval), so it is
modelled by a flag. -/
structure AudioState where
  hasFile : Bool
  base64 : Option String
  mimeType : String
  name : Option String
  deriving DecidableEq, Repr

/-! ### Identifier extraction (`getYoutubeVideoId`)

The source applies the JavaScript regular expression

  `^.*(youtu.be\/|v\/|u\/\w\/|embed\/|watch\?v=|&v=)([^#&?]*).*`

to the input URL and returns capture group 2 when its length is 11.
Because `^.*` is greedy and the tail `([^#&?]*).*` matches at any
position, the engine settles on the *last* position where one of the
six alternatives matches (the alternatives begin with pairwise distinct
characters, so at most one matches at a given position); group 2 is
then the maximal run of characters other than `#`, `&`, `?` following
the matched alternative.  `matchAlt` decides whether an alternative
matches at the head of a suffix and returns its length; `lastAltEnd`
returns the index just past the latest alternative match. -/

/-- JavaScript `\w`: ASCII letters, digits and underscore. -/
def isWordChar (c : Char) : Bool := c.isAlphanum || c == '_'

/-- Does one of the six alternatives of the regular expression match at
the head of this suffix, in the source's alternation order?  Returns
the matched length.  The `.` in `youtu.be` is the regex wildcard, so
the character at index 5 of the first alternative is unconstrained
(the one modelling licence taken: the wildcard here also admits a line
terminator, which JavaScript `.` would reject; no theorem below
depends on that position being a line terminator).  Each alternative
is a prefix test on the suffix: `l.take k == pat` holds exactly when
`l` has at least `k` characters and they spell `pat`. -/
def matchAlt (l : List Char) : Option Nat :=
  if l.take 5 == ("youtu").data && (l.drop 6).take 3 == ("be/").data then some 9
  else if l.take 2 == ("v/").data then some 2
  else if l.take 2 == ("u/").data && isWordChar (l.getD 2 ('a'))
          && (l.drop 3).take 1 == ("/").data then some 4
  else if l.take 6 == ("embed/").data then some 6
  else if l.take 8 == ("watch?v=").data then some 8
  else if l.take 3 == ("&v=").data then some 3
  else none

/-- Index just past the latest alternative match in the list (greedy
`^.*` backtracking: the latest matching position wins). -/
def lastAltEnd : List Char → Option Nat
  | [] => none
  | c :: rest =>
      match lastAltEnd rest with
      | some n => some (n + 1)
      | none => matchAlt (c :: rest)

/-- Characters admitted by capture group 2, `[^#&?]*`. -/
def ytTokenChar (c : Char) : Bool := !(c == '#' || c == '&' || c == '?')

/-- `getYoutubeVideoId` of `AudioInput.tsx`: the capture-group-2 token
at the latest alternative match, provided it has exactly 11
characters; otherwise `null`. -/
def getYoutubeVideoId (url : String) : Option String :=
  match lastAltEnd url.data with
  | none => none
  | some n =>
      let tok := (url.data.drop n).takeWhile ytTokenChar
      if tok.length = 11 then some (String.mk tok) else none

/-! ### Remote retrieval with fallback (`handleYoutubeFetch`)

The fetch loop walks the fixed instance list in order.  Per instance it
issues a direct fetch of the target URL; a successful (`response.ok`)
response body becomes the blob and the whole loop breaks.  A non-ok
response falls through (no relay attempt for that instance).  Only a
*thrown* direct fetch reaches the `catch(directError)` block, which
issues one relayed fetch of the same target URL through the CORS proxy;
an ok relayed response also breaks the loop.  Each fetch outcome is an
environment input, modelled per endpoint by `EndpointBehavior`; the
trace of issued fetches is recorded per endpoint in `Attempts`. -/

/-- Outcome of one `fetch`: an ok response with a body, a completed
response with a non-success status, or a thrown network/CORS error. -/
inductive FetchResult where
  | ok (body : Blob)
  | httpError
  | netError
  deriving DecidableEq, Repr

/-- Environment behaviour of one endpoint: the outcome of the direct
fetch of its target URL, and of the relayed fetch should it be
issued. -/
structure EndpointBehavior where
  direct : FetchResult
  relay : FetchResult
  deriving DecidableEq, Repr

/-- How many direct and relayed fetches were issued for one endpoint. -/
structure Attempts where
  direct : Nat
  relay : Nat
  deriving DecidableEq, Repr

/-- One iteration of the instance loop: direct fetch first; the relay
is consulted only when the direct fetch throws (`catch(directError)`).
Returns the candidate blob, if any, and the fetches issued. -/
def stepEndpoint (e : EndpointBehavior) : Option Blob × Attempts :=
  match e.direct with
  | .ok body => (some body, ⟨1, 0⟩)
  | .httpError => (none, ⟨1, 0⟩)
  | .netError =>
      match e.relay with
      | .ok body => (some body, ⟨1, 1⟩)
      | _ => (none, ⟨1, 1⟩)

/-- The `for (const instance of instances)` loop: strictly sequential,
first success breaks out of the whole loop, so endpoints after the
successful one are issued zero fetches. -/
def tryInstances : List EndpointBehavior → Option Blob × List Attempts
  | [] => (none, [])
  | e :: rest =>
      match stepEndpoint e with
      | (some b, a) => (some b, a :: rest.map fun _ => ⟨0, 0⟩)
      | (none, a) => ((tryInstances rest).1, a :: (tryInstances rest).2)

/-- The size ceiling: `20 * 1024 * 1024` bytes. -/
def maxAudioBytes : Nat := 20 * 1024 * 1024

/-- Errors surfaced by `handleYoutubeFetch` via `alert`. -/
inductive YtError where
  | invalidUrl
  | tooLarge
  | exhausted
  deriving DecidableEq, Repr

/-- The code after the instance loop: a present, non-empty blob is
checked against the ceiling before any base64 encoding happens (the
oversized branch returns without constructing a reader); an absent or
empty blob reports exhaustion. -/
def finalizeBlob (videoId : String) (ob : Option Blob) : Except YtError AudioState :=
  match ob with
  | some b =>
      if b.size > 0 then
        if b.size > maxAudioBytes then .error .tooLarge
        else
          .ok ⟨false, some (base64Encode b.data), "audio/mp4",
               some ("YouTube_" ++ videoId ++ ".m4a")⟩
      else .error .exhausted
  | none => .error .exhausted

/-- `handleYoutubeFetch`: identifier extraction, then the fallback
loop, then size enforcement and payload construction.  Also returns
the per-endpoint fetch trace; an invalid URL issues no fetches. -/
def handleYoutubeFetch (url : String) (endpoints : List EndpointBehavior) :
    Except YtError AudioState × List Attempts :=
  match getYoutubeVideoId url with
  | none => (.error .invalidUrl, endpoints.map fun _ => ⟨0, 0⟩)
  | some vid =>
      let r := tryInstances endpoints
      (finalizeBlob vid r.1, r.2)

/-! ### Live capture (`startRecording` / `stopRecording` / cleanup)

The recorder state is the component's refs and state hooks plus the
observable effects: payloads delivered through `onAudioReady` and the
number of times the microphone stream's tracks were stopped.  The
wall-clock portion of a recording's display name is abstracted to a
fixed label.  `MediaRecorder.stop()` fires the `onstop` handler, which
concatenates the accumulated chunks, delivers the payload through the
`FileReader` completion, and stops every track of the stream. -/

/-- `MediaRecorder.state`. -/
inductive RState where
  | inactive
  | recording
  deriving DecidableEq, Repr

/-- A payload delivered through `onAudioReady`, together with the blob
it was read from. -/
structure CapturedPayload where
  blob : Blob
  audio : AudioState
  deriving DecidableEq, Repr

/-- State of the `AudioInput` component relevant to live capture. -/
structure RecState where
  hasRecorder : Bool
  recorderState : RState
  chunks : List Blob
  isRecording : Bool
  recordingTime : Nat
  timerActive : Bool
  tracksReleased : Nat
  payloads : List CapturedPayload
  deriving DecidableEq, Repr

/-- The payload built by the `onstop` handler for a finished blob:
`audio/webm`, no file object, display name derived from the wall
clock (abstracted). -/
def mkRecordingPayload (b : Blob) : CapturedPayload :=
  ⟨b, ⟨false, some (base64Encode b.data), "audio/webm", some ("Recording.webm")⟩⟩

/-- `new Blob(chunksRef.current, { type: 'audio/webm' })`: byte-wise
concatenation of the chunks in arrival order. -/
def concatChunks (cs : List Blob) : Blob := ⟨(cs.map Blob.data).flatten⟩

/-- `startRecording`: on granted microphone access, installs a fresh
recorder, resets the chunk buffer, starts recording, zeroes the
elapsed-time counter and starts the timer.  On denied access the
handler only alerts, leaving the state unchanged. -/
def startRecording (granted : Bool) (s : RecState) : RecState :=
  if granted then
    { s with hasRecorder := true, recorderState := .recording, chunks := [],
             isRecording := true, recordingTime := 0, timerActive := true }
  else s

/-- The `ondataavailable` handler: only chunks of non-zero size are
pushed onto the buffer, in arrival order. -/
def onDataAvailable (s : RecState) (c : Blob) : RecState :=
  if c.size > 0 then { s with chunks := s.chunks ++ [c] } else s

/-- The `onstop` handler: concatenates the chunks, delivers the payload
through `onAudioReady`, and stops every track of the stream (releasing
the microphone). -/
def onStop (s : RecState) : RecState :=
  { s with payloads := s.payloads ++ [mkRecordingPayload (concatChunks s.chunks)],
           tracksReleased := s.tracksReleased + 1 }

/-- One tick of the elapsed-time interval. -/
def timerTick (s : RecState) : RecState :=
  if s.timerActive then { s with recordingTime := s.recordingTime + 1 } else s

/-- `stopRecording`: guarded by `mediaRecorderRef.current && isRecording`;
stops the recorder (firing `onstop`), clears the recording flag and
cancels the timer.  Otherwise a no-op. -/
def stopRecording (s : RecState) : RecState :=
  if s.hasRecorder ∧ s.isRecording then
    let s1 := onStop { s with recorderState := .inactive }
    { s1 with isRecording := false, timerActive := false }
  else s

/-- The `useEffect` cleanup run on unmount: clears the interval, and if
the recorder is still in the `recording` state stops it, firing
`onstop`. -/
def unmountCleanup (s : RecState) : RecState :=
  let s1 := { s with timerActive := false }
  if s1.hasRecorder ∧ s1.recorderState = .recording then
    onStop { s1 with recorderState := .inactive }
  else s1

/-! ### File acquisition (`handleFileUpload`) -/

/-- A selected file: declared content type, name, contents. -/
structure UFile where
  type : String
  name : String
  data : List Nat
  deriving DecidableEq, Repr

/-- Result of the upload handler: the validation alert, or the payload
handed to `onAudioReady`. -/
inductive UploadResult where
  | rejected
  | accepted (payload : AudioState)
  deriving DecidableEq, Repr

/-- `file.type.startsWith('audio/')` (the prefix is ASCII, so the
character-list comparison coincides with the string primitive). -/
def startsWithAudio (t : String) : Bool := t.data.take 6 == ("audio/").data

/-- `handleFileUpload` for a selected file: rejects (alert) any file
whose declared type is not an audio type; otherwise reads the file and
delivers a payload with the file's type and name. -/
def handleFileUpload (f : UFile) : UploadResult :=
  if startsWithAudio f.type then
    .accepted ⟨true, some (base64Encode f.data), f.type, some f.name⟩
  else .rejected

/-! ### Application state and the transcription guard (`App.tsx`) -/

/-- `AppStatus` of `types.ts`. -/
inductive AppStatus where
  | IDLE
  | PROCESSING
  | COMPLETED
  | ERROR
  deriving DecidableEq, Repr

/-- The `App` component state. -/
structure AppState where
  status : AppStatus
  audioData : Option AudioState
  transcript : String
  errorMsg : Option String
  deriving DecidableEq, Repr

/-- `handleTranscribe`: the guard
`if (!audioData?.base64 || !audioData?.mimeType) return;` returns
without touching any state when the data is absent or falsy (a missing
payload, a missing or empty base64 field, or an empty MIME type).
Otherwise the service is called with the encoded payload; its outcome
`svc` is an environment input.  The boolean reports whether the
Transcription Service was called. -/
def handleTranscribe (s : AppState) (svc : Except String String) : AppState × Bool :=
  match s.audioData with
  | none => (s, false)
  | some a =>
      if a.base64 = none ∨ a.base64 = some ("") ∨ a.mimeType = "" then (s, false)
      else
        match svc with
        | .ok text => ({ s with status := .COMPLETED, transcript := text,
                                errorMsg := none }, true)
        | .error msg => ({ s with status := .ERROR, errorMsg := some msg }, true)

/-- The states in which `handleTranscribe`'s guard fires: no payload,
or the payload's encoded field or MIME type missing (JavaScript-falsy). -/
def encodedMissing (s : AppState) : Prop :=
  match s.audioData with
  | none => True
  | some a => a.base64 = none ∨ a.base64 = some ("") ∨ a.mimeType = ""

/-! ### Claims about remote retrieval fallback -/

/-- C1: endpoint attempts are strictly sequential in list order; with
endpoints `[A, B, C]`, if A's direct fetch throws and its relayed fetch
also fails, while B's direct fetch succeeds, the resulting blob is B's
response body, B's success ends the search, and C is issued zero
fetches. -/
theorem tryInstances_first_success (A B C : EndpointBehavior) (body : Blob)
    (hA1 : A.direct = .netError) (hA2 : ∀ b, A.relay ≠ .ok b)
    (hB : B.direct = .ok body) :
    tryInstances [A, B, C] = (some body, [⟨1, 1⟩, ⟨1, 0⟩, ⟨0, 0⟩]) := by
  have hA : stepEndpoint A = (none, ⟨1, 1⟩) := by
    cases hr : A.relay with
    | ok b => exact absurd hr (hA2 b)
    | httpError => simp [stepEndpoint, hA1, hr]
    | netError => simp [stepEndpoint, hA1, hr]
  have hBs : stepEndpoint B = (some body, ⟨1, 0⟩) := by
    simp [stepEndpoint, hB]
  simp [tryInstances, hA, hBs]

/-- Witness for C1 at concrete endpoint behaviours. -/
theorem tryInstances_first_success_witness :
    tryInstances [⟨.netError, .httpError⟩, ⟨.ok ⟨[7]⟩, .httpError⟩, ⟨.ok ⟨[9]⟩, .netError⟩]
      = (some ⟨[7]⟩, [⟨1, 1⟩, ⟨1, 0⟩, ⟨0, 0⟩]) :=
  tryInstances_first_success _ _ _ _ rfl (fun _b h => FetchResult.noConfusion h) rfl

/-- C8: the relayed fetch is issued for an endpoint exactly when the
direct fetch throws; a direct fetch completing with a non-success
status advances to the next endpoint with no relay attempt for the
current one. -/
theorem relay_only_on_throw (e : EndpointBehavior) (rest : List EndpointBehavior) :
    ((stepEndpoint e).2.relay = 1 ↔ e.direct = .netError) ∧
    ((stepEndpoint e).2.relay = 0 ∨ (stepEndpoint e).2.relay = 1) ∧
    (e.direct = .httpError →
      tryInstances (e :: rest) = ((tryInstances rest).1, ⟨1, 0⟩ :: (tryInstances rest).2)) := by
  refine ⟨?_, ?_, ?_⟩
  · cases h : e.direct with
    | ok _b => simp [stepEndpoint, h]
    | httpError => simp [stepEndpoint, h]
    | netError => cases hr : e.relay <;> simp [stepEndpoint, h, hr]
  · cases h : e.direct with
    | ok _b => simp [stepEndpoint, h]
    | httpError => simp [stepEndpoint, h]
    | netError => cases hr : e.relay <;> simp [stepEndpoint, h, hr]
  · intro h
    have hs : stepEndpoint e = (none, ⟨1, 0⟩) := by simp [stepEndpoint, h]
    simp [tryInstances, hs]

/-- Witness for C8 at concrete endpoint behaviours. -/
theorem relay_only_on_throw_witness :
    ((stepEndpoint ⟨.netError, .netError⟩).2.relay = 1 ↔
      EndpointBehavior.direct ⟨.netError, .netError⟩ = .netError) ∧
    tryInstances [⟨.httpError, .ok ⟨[5]⟩⟩]
      = ((tryInstances []).1, ⟨1, 0⟩ :: (tryInstances []).2) :=
  ⟨(relay_only_on_throw ⟨.netError, .netError⟩ []).1,
   (relay_only_on_throw ⟨.httpError, .ok ⟨[5]⟩⟩ []).2.2 rfl⟩

/-- C3: a retrieved blob of exactly `20 * 1024 * 1024` bytes passes the
ceiling and yields the payload; any strictly larger blob fails with the
too-large error, whose result carries no encoding (the oversized branch
returns before any base64 encoding). -/
theorem finalizeBlob_size_limit (vid : String) (b : Blob) :
    (b.size = maxAudioBytes →
      finalizeBlob vid (some b) =
        .ok ⟨false, some (base64Encode b.data), "audio/mp4",
             some ("YouTube_" ++ vid ++ ".m4a")⟩) ∧
    (maxAudioBytes < b.size → finalizeBlob vid (some b) = .error .tooLarge) := by
  constructor
  · intro h
    simp [finalizeBlob, h, maxAudioBytes]
  · intro h
    have h0 : b.size > 0 := lt_of_le_of_lt (Nat.zero_le _) h
    simp [finalizeBlob, h0, Nat.lt_irrefl, h]

/-- Witness for C3 at blobs of exactly 20 MiB and 20 MiB + 1 byte. -/
theorem finalizeBlob_size_limit_witness :
    finalizeBlob ("dQw4w9WgXcQ") (some ⟨List.replicate (20 * 1024 * 1024) 0⟩) =
      .ok ⟨false, some (base64Encode (List.replicate (20 * 1024 * 1024) 0)), "audio/mp4",
           some ("YouTube_" ++ "dQw4w9WgXcQ" ++ ".m4a")⟩ ∧
    finalizeBlob ("dQw4w9WgXcQ") (some ⟨List.replicate (20 * 1024 * 1024 + 1) 0⟩) =
      .error .tooLarge :=
  ⟨(finalizeBlob_size_limit _ _).1 (by
      show (List.replicate (20 * 1024 * 1024) 0).length = maxAudioBytes
      rw [List.length_replicate]
      rfl),
   (finalizeBlob_size_limit _ _).2 (by
      show maxAudioBytes < (List.replicate (20 * 1024 * 1024 + 1) 0).length
      rw [List.length_replicate]
      exact Nat.lt_succ_self _)⟩

/-! ### Claims about live capture -/

/-- An idle component state. -/
def rsIdle : RecState := ⟨false, .inactive, [], false, 0, false, 0, []⟩

/-- A component state in the middle of a recording. -/
def rsRec : RecState := ⟨true, .recording, [⟨[1, 2]⟩], true, 3, true, 0, []⟩

/-- C6: `stopRecording` is a no-op outside the recording state, is
idempotent, and a stop of a live session followed by a second stop
releases the microphone exactly once. -/
theorem stopRecording_idempotent :
    (∀ s : RecState, s.isRecording = false → stopRecording s = s) ∧
    (∀ s : RecState, stopRecording (stopRecording s) = stopRecording s) ∧
    (∀ s : RecState, s.hasRecorder = true → s.isRecording = true →
      (stopRecording (stopRecording s)).tracksReleased = s.tracksReleased + 1) := by
  refine ⟨?_, ?_, ?_⟩
  · intro s h
    simp [stopRecording, h]
  · intro s
    by_cases h : s.hasRecorder ∧ s.isRecording
    · simp [stopRecording, h, onStop]
    · simp [stopRecording, h]
  · intro s h1 h2
    simp [stopRecording, h1, h2, onStop]

/-- Witness for C6 at concrete component states. -/
theorem stopRecording_idempotent_witness :
    stopRecording rsIdle = rsIdle ∧
    stopRecording (stopRecording rsRec) = stopRecording rsRec ∧
    (stopRecording (stopRecording rsRec)).tracksReleased = rsRec.tracksReleased + 1 :=
  ⟨stopRecording_idempotent.1 rsIdle rfl,
   stopRecording_idempotent.2.1 rsRec,
   stopRecording_idempotent.2.2 rsRec rfl rfl⟩

/-- The `ondataavailable` handler changes only the chunk buffer. -/
theorem onData_frame (s : RecState) (c : Blob) :
    (onDataAvailable s c).hasRecorder = s.hasRecorder ∧
    (onDataAvailable s c).isRecording = s.isRecording ∧
    (onDataAvailable s c).payloads = s.payloads ∧
    (onDataAvailable s c).tracksReleased = s.tracksReleased ∧
    (onDataAvailable s c).recorderState = s.recorderState := by
  unfold onDataAvailable
  split <;> simp

/-- Chunk delivery over a whole cycle appends exactly the non-empty
chunks in arrival order. -/
theorem foldl_onData_chunks (cs : List Blob) (s : RecState) :
    (cs.foldl onDataAvailable s).chunks
      = s.chunks ++ cs.filter fun c => decide (c.size > 0) := by
  induction cs generalizing s with
  | nil => simp
  | cons c cs ih =>
      by_cases hc : c.size > 0
      · simp [onDataAvailable, hc, ih, List.filter_cons]
      · simp [onDataAvailable, hc, ih, List.filter_cons]

/-- Chunk delivery leaves every other component field unchanged. -/
theorem foldl_onData_frame (cs : List Blob) (s : RecState) :
    (cs.foldl onDataAvailable s).hasRecorder = s.hasRecorder ∧
    (cs.foldl onDataAvailable s).isRecording = s.isRecording ∧
    (cs.foldl onDataAvailable s).payloads = s.payloads := by
  induction cs generalizing s with
  | nil => simp
  | cons c cs ih =>
      rcases ih (onDataAvailable s c) with ⟨h1, h2, h3⟩
      rcases onData_frame s c with ⟨g1, g2, g3, _, _⟩
      exact ⟨by rw [List.foldl_cons, h1, g1], by rw [List.foldl_cons, h2, g2],
             by rw [List.foldl_cons, h3, g3]⟩

/-- One full capture cycle (start, chunk deliveries, stop) appends
exactly one payload, built from the non-empty chunks in arrival
order. -/
theorem cycle_payloads (s0 : RecState) (cs : List Blob) :
    (stopRecording (cs.foldl onDataAvailable (startRecording true s0))).payloads
      = s0.payloads ++
        [mkRecordingPayload (concatChunks (cs.filter fun c => decide (c.size > 0)))] := by
  rcases foldl_onData_frame cs (startRecording true s0) with ⟨h1, h2, h3⟩
  have hch := foldl_onData_chunks cs (startRecording true s0)
  have hR : (cs.foldl onDataAvailable (startRecording true s0)).hasRecorder = true := by
    rw [h1]; simp [startRecording]
  have hI : (cs.foldl onDataAvailable (startRecording true s0)).isRecording = true := by
    rw [h2]; simp [startRecording]
  have hP : (cs.foldl onDataAvailable (startRecording true s0)).payloads = s0.payloads := by
    rw [h3]; simp [startRecording]
  have hC : (cs.foldl onDataAvailable (startRecording true s0)).chunks
      = cs.filter fun c => decide (c.size > 0) := by
    rw [hch]; simp [startRecording]
  simp [stopRecording, hR, hI, onStop, hP, hC]

/-- C5: feeding non-empty chunks in order through a capture cycle
yields exactly one new payload whose underlying blob is the
concatenation of the chunks in arrival order, and whose byte size is
the sum of the chunk sizes. -/
theorem record_cycle_payload (s0 : RecState) (cs : List Blob)
    (h : ∀ c ∈ cs, c.size > 0) :
    (stopRecording (cs.foldl onDataAvailable (startRecording true s0))).payloads
      = s0.payloads ++ [mkRecordingPayload (concatChunks cs)] ∧
    (concatChunks cs).size = (cs.map Blob.size).sum := by
  constructor
  · have hfil : (cs.filter fun c => decide (c.size > 0)) = cs := by
      rw [List.filter_eq_self]
      intro a ha
      simpa using h a ha
    rw [cycle_payloads s0 cs, hfil]
  · simp only [concatChunks, Blob.size, List.length_flatten, List.map_map]
    rfl

set_option maxRecDepth 8000 in
/-- Witness for C5: chunks of 100, 200 and 50 bytes give one payload of
350 bytes. -/
theorem record_cycle_payload_witness :
    (stopRecording
        ([⟨List.replicate 100 1⟩, ⟨List.replicate 200 2⟩, ⟨List.replicate 50 3⟩].foldl
          onDataAvailable (startRecording true rsIdle))).payloads
      = rsIdle.payloads ++
        [mkRecordingPayload
          (concatChunks [⟨List.replicate 100 1⟩, ⟨List.replicate 200 2⟩, ⟨List.replicate 50 3⟩])] ∧
    (concatChunks
        [⟨List.replicate 100 1⟩, ⟨List.replicate 200 2⟩, ⟨List.replicate 50 3⟩]).size = 350 := by
  have h := record_cycle_payload rsIdle
    [⟨List.replicate 100 1⟩, ⟨List.replicate 200 2⟩, ⟨List.replicate 50 3⟩]
    (by intro c hc; fin_cases hc <;> simp [Blob.size])
  refine ⟨h.1, ?_⟩
  rw [h.2]
  simp [Blob.size]

/-- C10: every successful `startRecording` begins with an empty chunk
buffer, `ondataavailable` accumulates exactly the chunks of non-zero
size, and the payload produced by the following stop is built from
exactly the non-empty chunks delivered during the current cycle. -/
theorem fresh_cycle_chunks :
    (∀ s : RecState, (startRecording true s).chunks = []) ∧
    (∀ (s : RecState) (c : Blob),
      (onDataAvailable s c).chunks =
        if c.size > 0 then s.chunks ++ [c] else s.chunks) ∧
    (∀ (s0 : RecState) (cs : List Blob),
      (stopRecording (cs.foldl onDataAvailable (startRecording true s0))).payloads
        = s0.payloads ++
          [mkRecordingPayload (concatChunks (cs.filter fun c => decide (c.size > 0)))]) := by
  refine ⟨?_, ?_, ?_⟩
  · intro s; simp [startRecording]
  · intro s c
    unfold onDataAvailable
    split <;> simp_all
  · intro s0 cs
    exact cycle_payloads s0 cs

/-- C4 counterexample: tearing the component down while recording does
deliver a payload — the cleanup stops the recorder, whose `onstop`
handler still reads the accumulated chunks and invokes
`onAudioReady`. -/
theorem unmount_payload_counterexample :
    (onDataAvailable (startRecording true rsIdle) ⟨[1, 2, 3]⟩).isRecording = true ∧
    (onDataAvailable (startRecording true rsIdle) ⟨[1, 2, 3]⟩).recorderState = .recording ∧
    (onDataAvailable (startRecording true rsIdle) ⟨[1, 2, 3]⟩).payloads = [] ∧
    (unmountCleanup (onDataAvailable (startRecording true rsIdle) ⟨[1, 2, 3]⟩)).payloads ≠ [] := by
  refine ⟨rfl, rfl, rfl, ?_⟩
  decide

/-- C4 amended: tearing the session down while recording cancels the
elapsed-time counter and releases the microphone tracks exactly once,
but the payload callback is still invoked once with the accumulated
chunks. -/
theorem unmount_cleanup_behavior (s : RecState)
    (h1 : s.hasRecorder = true) (h2 : s.recorderState = .recording) :
    (unmountCleanup s).timerActive = false ∧
    (unmountCleanup s).tracksReleased = s.tracksReleased + 1 ∧
    (unmountCleanup s).payloads
      = s.payloads ++ [mkRecordingPayload (concatChunks s.chunks)] ∧
    timerTick (unmountCleanup s) = unmountCleanup s := by
  simp [unmountCleanup, h1, h2, onStop, timerTick]

/-- Witness for the amended C4 at a concrete recording state. -/
theorem unmount_cleanup_behavior_witness :
    (unmountCleanup rsRec).timerActive = false ∧
    (unmountCleanup rsRec).tracksReleased = rsRec.tracksReleased + 1 ∧
    (unmountCleanup rsRec).payloads
      = rsRec.payloads ++ [mkRecordingPayload (concatChunks rsRec.chunks)] ∧
    timerTick (unmountCleanup rsRec) = unmountCleanup rsRec :=
  unmount_cleanup_behavior rsRec rfl rfl

/-! ### Claims about file acquisition and the transcription guard -/

/-- C7: a selected file whose declared content type is not an audio
type is rejected with the validation alert and yields no payload; an
audio-typed file yields a payload whose MIME type is the file's
declared type and whose display name is the file's name. -/
theorem handleFileUpload_validation (f : UFile) :
    (startsWithAudio f.type = false → handleFileUpload f = .rejected) ∧
    (startsWithAudio f.type = true →
      handleFileUpload f =
        .accepted ⟨true, some (base64Encode f.data), f.type, some f.name⟩) := by
  constructor <;> intro h <;> simp [handleFileUpload, h]

/-- Witness for C7 at a text file and an audio file. -/
theorem handleFileUpload_validation_witness :
    handleFileUpload ⟨("text/plain"), ("notes.txt"), [104, 105]⟩ = .rejected ∧
    handleFileUpload ⟨("audio/mpeg"), ("song.mp3"), [1, 2, 3]⟩ =
      .accepted ⟨true, some (base64Encode [1, 2, 3]), "audio/mpeg", some ("song.mp3")⟩ :=
  ⟨(handleFileUpload_validation _).1 rfl,
   (handleFileUpload_validation _).2 rfl⟩

/-- C9: whenever the transcribe operation is invoked while the
payload's encoded field or MIME type is missing, it returns without
calling the Transcription Service and the session state is
unchanged. -/
theorem handleTranscribe_guard (s : AppState) (svc : Except String String)
    (h : encodedMissing s) : handleTranscribe s svc = (s, false) := by
  unfold encodedMissing at h
  unfold handleTranscribe
  cases hA : s.audioData with
  | none => simp
  | some a =>
      rw [hA] at h
      have h2 : a.base64 = none ∨ a.base64 = some ("") ∨ a.mimeType = "" := h
      rcases h2 with h2 | h2 | h2 <;> simp [h2]

/-- Witness for C9 at a state whose payload lacks the encoded field. -/
theorem handleTranscribe_guard_witness :
    handleTranscribe ⟨.IDLE, some ⟨false, none, "audio/webm", none⟩, "", none⟩ (.ok ("hi"))
      = (⟨.IDLE, some ⟨false, none, "audio/webm", none⟩, "", none⟩, false) :=
  handleTranscribe_guard _ _ (by simp [encodedMissing])

/-! ### The identifier-extraction claim

The generic shape theorems below quantify over an arbitrary
11-character identifier whose characters avoid `/`, `?`, `&` and `#`
(every character of a real video identifier — ASCII letters, digits,
`-`, `_` — qualifies).  Such characters can neither start an
alternative match of their own nor cut the capture-group-2 token
short, which pins the regular expression's greedy match to the named
shape. -/

/-- Characters that occur in extracted identifiers: they appear in no
alternative of the pattern and are admitted by `[^#&?]*`. -/
def safeChar (c : Char) : Prop := c ≠ '/' ∧ c ≠ '?' ∧ c ≠ '&' ∧ c ≠ '#'

instance (c : Char) : Decidable (safeChar c) := by
  unfold safeChar
  infer_instance

/-- A satisfied prefix test forces membership of the pattern's
characters. -/
theorem mem_of_take_beq {l s : List Char} {n : Nat} (hb : (l.take n == s) = true)
    {c : Char} (hc : c ∈ s) : c ∈ l := by
  have he : l.take n = s := beq_iff_eq.mp hb
  exact List.take_subset n l (he ▸ hc)

/-- A satisfied offset prefix test forces membership of the pattern's
characters. -/
theorem mem_of_drop_take_beq {l s : List Char} {m n : Nat}
    (hb : ((l.drop m).take n == s) = true) {c : Char} (hc : c ∈ s) : c ∈ l := by
  have he : (l.drop m).take n = s := beq_iff_eq.mp hb
  exact List.drop_subset m l (List.take_subset n (l.drop m) (he ▸ hc))

/-- No alternative matches at the head of a list of safe characters:
every alternative contains `/`, `?` or `&`. -/
theorem matchAlt_eq_none (l : List Char) (h : ∀ c ∈ l, safeChar c) : matchAlt l = none := by
  have hsl : ('/' : Char) ∉ l := fun hm => (h _ hm).1 rfl
  have hq : ('?' : Char) ∉ l := fun hm => (h _ hm).2.1 rfl
  have ha : ('&' : Char) ∉ l := fun hm => (h _ hm).2.2.1 rfl
  have c1 : (l.take 5 == ("youtu").data && (l.drop 6).take 3 == ("be/").data) = false := by
    rw [Bool.eq_false_iff]
    intro hc
    exact hsl (mem_of_drop_take_beq (Bool.and_eq_true _ _ |>.mp hc).2 (by simp))
  have c2 : (l.take 2 == ("v/").data) = false := by
    rw [Bool.eq_false_iff]
    intro hc
    exact hsl (mem_of_take_beq hc (by simp))
  have c3 : (l.take 2 == ("u/").data && isWordChar (l.getD 2 ('a'))
      && (l.drop 3).take 1 == ("/").data) = false := by
    rw [Bool.eq_false_iff]
    intro hc
    exact hsl (mem_of_take_beq (Bool.and_eq_true _ _ |>.mp
      (Bool.and_eq_true _ _ |>.mp hc).1).1 (by simp))
  have c4 : (l.take 6 == ("embed/").data) = false := by
    rw [Bool.eq_false_iff]
    intro hc
    exact hsl (mem_of_take_beq hc (by simp))
  have c5 : (l.take 8 == ("watch?v=").data) = false := by
    rw [Bool.eq_false_iff]
    intro hc
    exact hq (mem_of_take_beq hc (by simp))
  have c6 : (l.take 3 == ("&v=").data) = false := by
    rw [Bool.eq_false_iff]
    intro hc
    exact ha (mem_of_take_beq hc (by simp))
  simp only [matchAlt, c1, c2, c3, c4, c5, c6, Bool.false_eq_true, if_false]

/-- A list of safe characters contains no alternative match at all. -/
theorem lastAltEnd_eq_none (l : List Char) (h : ∀ c ∈ l, safeChar c) : lastAltEnd l = none := by
  induction l with
  | nil => rfl
  | cons c rest ih =>
      have hr : lastAltEnd rest = none := ih fun x hx => h x (List.mem_cons_of_mem _ hx)
      have hm : matchAlt (c :: rest) = none := matchAlt_eq_none _ h
      simp [lastAltEnd, hr, hm]

/-- With no match further right, the head position decides. -/
theorem lastAltEnd_cons_none (c : Char) {l : List Char} (h : lastAltEnd l = none) :
    lastAltEnd (c :: l) = matchAlt (c :: l) := by
  simp [lastAltEnd, h]

/-- A match further right wins (greedy `^.*`). -/
theorem lastAltEnd_cons_some (c : Char) {l : List Char} {n : Nat} (h : lastAltEnd l = some n) :
    lastAltEnd (c :: l) = some (n + 1) := by
  simp [lastAltEnd, h]

/-- Prepending any characters shifts an existing match. -/
theorem lastAltEnd_append_some (xs : List Char) {l : List Char} {n : Nat}
    (h : lastAltEnd l = some n) : lastAltEnd (xs ++ l) = some (n + xs.length) := by
  induction xs with
  | nil => simpa using h
  | cons c xs ih =>
      rw [List.cons_append, lastAltEnd_cons_some c ih]
      simp [Nat.add_assoc]

/-- The watch-page query-parameter shape: the match ends right after
`watch?v=`. -/
theorem lastAltEnd_watch {l : List Char} (h : lastAltEnd l = none) :
    lastAltEnd (("watch?v=").data ++ l) = some 8 := by
  have e1 : lastAltEnd ('=' :: l) = none := by rw [lastAltEnd_cons_none _ h]; rfl
  have e2 : lastAltEnd ('v' :: '=' :: l) = none := by rw [lastAltEnd_cons_none _ e1]; rfl
  have e3 : lastAltEnd ('?' :: 'v' :: '=' :: l) = none := by rw [lastAltEnd_cons_none _ e2]; rfl
  have e4 : lastAltEnd ('h' :: '?' :: 'v' :: '=' :: l) = none := by
    rw [lastAltEnd_cons_none _ e3]; rfl
  have e5 : lastAltEnd ('c' :: 'h' :: '?' :: 'v' :: '=' :: l) = none := by
    rw [lastAltEnd_cons_none _ e4]; rfl
  have e6 : lastAltEnd ('t' :: 'c' :: 'h' :: '?' :: 'v' :: '=' :: l) = none := by
    rw [lastAltEnd_cons_none _ e5]; rfl
  have e7 : lastAltEnd ('a' :: 't' :: 'c' :: 'h' :: '?' :: 'v' :: '=' :: l) = none := by
    rw [lastAltEnd_cons_none _ e6]; rfl
  show lastAltEnd ('w' :: 'a' :: 't' :: 'c' :: 'h' :: '?' :: 'v' :: '=' :: l) = some 8
  rw [lastAltEnd_cons_none _ e7]; rfl

/-- The short-link path shape: the match ends right after
`youtu.be/`. -/
theorem lastAltEnd_short {l : List Char} (h : lastAltEnd l = none) :
    lastAltEnd (("youtu.be/").data ++ l) = some 9 := by
  have e1 : lastAltEnd ('/' :: l) = none := by rw [lastAltEnd_cons_none _ h]; rfl
  have e2 : lastAltEnd ('e' :: '/' :: l) = none := by rw [lastAltEnd_cons_none _ e1]; rfl
  have e3 : lastAltEnd ('b' :: 'e' :: '/' :: l) = none := by rw [lastAltEnd_cons_none _ e2]; rfl
  have e4 : lastAltEnd ('.' :: 'b' :: 'e' :: '/' :: l) = none := by
    rw [lastAltEnd_cons_none _ e3]; rfl
  have e5 : lastAltEnd ('u' :: '.' :: 'b' :: 'e' :: '/' :: l) = none := by
    rw [lastAltEnd_cons_none _ e4]; rfl
  have e6 : lastAltEnd ('t' :: 'u' :: '.' :: 'b' :: 'e' :: '/' :: l) = none := by
    rw [lastAltEnd_cons_none _ e5]; rfl
  have e7 : lastAltEnd ('u' :: 't' :: 'u' :: '.' :: 'b' :: 'e' :: '/' :: l) = none := by
    rw [lastAltEnd_cons_none _ e6]; rfl
  have e8 : lastAltEnd ('o' :: 'u' :: 't' :: 'u' :: '.' :: 'b' :: 'e' :: '/' :: l) = none := by
    rw [lastAltEnd_cons_none _ e7]; rfl
  show lastAltEnd ('y' :: 'o' :: 'u' :: 't' :: 'u' :: '.' :: 'b' :: 'e' :: '/' :: l) = some 9
  rw [lastAltEnd_cons_none _ e8]; rfl

/-- The embed path shape: the match ends right after `embed/`. -/
theorem lastAltEnd_embed {l : List Char} (h : lastAltEnd l = none) :
    lastAltEnd (("embed/").data ++ l) = some 6 := by
  have e1 : lastAltEnd ('/' :: l) = none := by rw [lastAltEnd_cons_none _ h]; rfl
  have e2 : lastAltEnd ('d' :: '/' :: l) = none := by rw [lastAltEnd_cons_none _ e1]; rfl
  have e3 : lastAltEnd ('e' :: 'd' :: '/' :: l) = none := by rw [lastAltEnd_cons_none _ e2]; rfl
  have e4 : lastAltEnd ('b' :: 'e' :: 'd' :: '/' :: l) = none := by
    rw [lastAltEnd_cons_none _ e3]; rfl
  have e5 : lastAltEnd ('m' :: 'b' :: 'e' :: 'd' :: '/' :: l) = none := by
    rw [lastAltEnd_cons_none _ e4]; rfl
  show lastAltEnd ('e' :: 'm' :: 'b' :: 'e' :: 'd' :: '/' :: l) = some 6
  rw [lastAltEnd_cons_none _ e5]; rfl

/-- Match position across the full watch-page URL. -/
theorem lastAltEnd_watch_full {l : List Char} (h : lastAltEnd l = none) :
    lastAltEnd (("https://www.youtube.com/watch?v=").data ++ l) = some 32 :=
  lastAltEnd_append_some (("https://www.youtube.com/").data) (lastAltEnd_watch h)

/-- Match position across the full short-link URL. -/
theorem lastAltEnd_short_full {l : List Char} (h : lastAltEnd l = none) :
    lastAltEnd (("https://youtu.be/").data ++ l) = some 17 :=
  lastAltEnd_append_some (("https://").data) (lastAltEnd_short h)

/-- Match position across the full embed URL. -/
theorem lastAltEnd_embed_full {l : List Char} (h : lastAltEnd l = none) :
    lastAltEnd (("https://www.youtube.com/embed/").data ++ l) = some 30 :=
  lastAltEnd_append_some (("https://www.youtube.com/").data) (lastAltEnd_embed h)

/-- Safe characters are all kept by the capture-group-2 scan. -/
theorem token_all {l : List Char} (h : ∀ c ∈ l, safeChar c) :
    l.takeWhile ytTokenChar = l := by
  rw [List.takeWhile_eq_self_iff]
  intro x hx
  have hs := h x hx
  simp [ytTokenChar, hs.2.2.2, hs.2.1, hs.2.2.1]

/-- Extraction returns the identifier itself when the match ends where
the identifier begins. -/
theorem shape_value (pre : String) (id : String) (n : Nat)
    (hpre : lastAltEnd ((pre ++ id).data) = some n)
    (hdrop : (pre ++ id).data.drop n = id.data)
    (hlen : id.length = 11)
    (hsafe : ∀ c ∈ id.data, safeChar c) :
    getYoutubeVideoId (pre ++ id) = some id := by
  have hlen2 : id.data.length = 11 := hlen
  have heta : String.mk id.data = id := rfl
  unfold getYoutubeVideoId
  rw [hpre]
  simp only [hdrop, token_all hsafe, hlen2, if_true, heta]

/-- Watch-page shape, arbitrary 11-character identifier. -/
theorem getYoutubeVideoId_watch (id : String) (hlen : id.length = 11)
    (hsafe : ∀ c ∈ id.data, safeChar c) :
    getYoutubeVideoId ("https://www.youtube.com/watch?v=" ++ id) = some id := by
  have h0 : lastAltEnd id.data = none := lastAltEnd_eq_none _ hsafe
  refine shape_value _ _ 32 ?_ ?_ hlen hsafe
  · rw [String.data_append]
    exact lastAltEnd_watch_full h0
  · rw [String.data_append]
    exact List.drop_left (("https://www.youtube.com/watch?v=").data) id.data

/-- Short-link shape, arbitrary 11-character identifier. -/
theorem getYoutubeVideoId_short (id : String) (hlen : id.length = 11)
    (hsafe : ∀ c ∈ id.data, safeChar c) :
    getYoutubeVideoId ("https://youtu.be/" ++ id) = some id := by
  have h0 : lastAltEnd id.data = none := lastAltEnd_eq_none _ hsafe
  refine shape_value _ _ 17 ?_ ?_ hlen hsafe
  · rw [String.data_append]
    exact lastAltEnd_short_full h0
  · rw [String.data_append]
    exact List.drop_left (("https://youtu.be/").data) id.data

/-- Embed-path shape, arbitrary 11-character identifier. -/
theorem getYoutubeVideoId_embed (id : String) (hlen : id.length = 11)
    (hsafe : ∀ c ∈ id.data, safeChar c) :
    getYoutubeVideoId ("https://www.youtube.com/embed/" ++ id) = some id := by
  have h0 : lastAltEnd id.data = none := lastAltEnd_eq_none _ hsafe
  refine shape_value _ _ 30 ?_ ?_ hlen hsafe
  · rw [String.data_append]
    exact lastAltEnd_embed_full h0
  · rw [String.data_append]
    exact List.drop_left (("https://www.youtube.com/embed/").data) id.data

/-- If no alternative matches at any position, there is no match. -/
theorem lastAltEnd_none_of_no_match (l : List Char)
    (h : ∀ i : Nat, matchAlt (l.drop i) = none) : lastAltEnd l = none := by
  induction l with
  | nil => rfl
  | cons c rest ih =>
      have hr : lastAltEnd rest = none := ih fun i => h (i + 1)
      rw [lastAltEnd_cons_none _ hr]
      exact h 0

/-- C2: for every URL of a known shape (watch-page query parameter,
short-link path segment, embed path segment) carrying an 11-character
identifier, extraction returns exactly that identifier; a URL at which
no alternative of the pattern matches yields nothing, and it then
surfaces as the user-visible invalid-reference failure of
`handleYoutubeFetch`, with zero fetches issued; and any returned token
has exactly 11 characters (a match whose token has any other length
yields nothing). -/
theorem getYoutubeVideoId_spec (id : String) (hlen : id.length = 11)
    (hsafe : ∀ c ∈ id.data, safeChar c) :
    getYoutubeVideoId ("https://www.youtube.com/watch?v=" ++ id) = some id ∧
    getYoutubeVideoId ("https://youtu.be/" ++ id) = some id ∧
    getYoutubeVideoId ("https://www.youtube.com/embed/" ++ id) = some id ∧
    (∀ url : String, (∀ i : Nat, matchAlt (url.data.drop i) = none) →
      getYoutubeVideoId url = none) ∧
    (∀ (url : String) (es : List EndpointBehavior), getYoutubeVideoId url = none →
      handleYoutubeFetch url es = (.error .invalidUrl, es.map fun _ => ⟨0, 0⟩)) ∧
    (∀ (url : String) (tok : String), getYoutubeVideoId url = some tok →
      tok.length = 11) := by
  refine ⟨getYoutubeVideoId_watch id hlen hsafe, getYoutubeVideoId_short id hlen hsafe,
         getYoutubeVideoId_embed id hlen hsafe, ?_, ?_, ?_⟩
  · intro url h
    unfold getYoutubeVideoId
    rw [lastAltEnd_none_of_no_match _ h]
  · intro url es h
    simp [handleYoutubeFetch, h]
  · intro url tok h
    unfold getYoutubeVideoId at h
    cases he : lastAltEnd url.data with
    | none => rw [he] at h; exact Option.noConfusion h
    | some n =>
        rw [he] at h
        by_cases hc : (List.takeWhile ytTokenChar (List.drop n url.data)).length = 11
        · simp only [hc, eq_self_iff_true, if_true] at h
          cases h
          exact hc
        · simp only [hc, if_false] at h
          exact Option.noConfusion h

/-- Witness for C2 at a concrete identifier in all three shapes. -/
theorem getYoutubeVideoId_spec_witness :
    getYoutubeVideoId ("https://www.youtube.com/watch?v=" ++ "dQw4w9WgXcQ")
      = some ("dQw4w9WgXcQ") ∧
    getYoutubeVideoId ("https://youtu.be/" ++ "dQw4w9WgXcQ") = some ("dQw4w9WgXcQ") ∧
    getYoutubeVideoId ("https://www.youtube.com/embed/" ++ "dQw4w9WgXcQ")
      = some ("dQw4w9WgXcQ") := by
  have h := getYoutubeVideoId_spec ("dQw4w9WgXcQ") rfl (by decide)
  exact ⟨h.1, h.2.1, h.2.2.1⟩

